import Mathlib

/-!
Shallow embedding of the update-polling and message-dispatch pipeline of the
`telegram_post` repository (`src/telegram_post/config.py`,
`src/telegram_post/telegram_client.py`, `src/telegram_post/link_selector.py`,
`src/telegram_post/main.py`).  Pure functions are translated directly;
effectful code (HTTP attempts, the state file) is modelled by explicit
outcome scripts and document values.  All definitions follow the Python
source; JSON-level values are modelled at the granularity the source
distinguishes.
-/

namespace TelegramPost

/-! ### Python string primitives used by the source -/

/-- Default whitespace of Python `str.strip` (ASCII part; the source never
relies on non-ASCII whitespace). -/
def isPyWs (c : Char) : Bool :=
  c = ' ' || c = '\t' || c = '\n' || c = '\r' || c = '\x0b' || c = '\x0c'

/-- Python `str.rstrip()` on the character list. -/
def stripRightChars : List Char → List Char
  | [] => []
  | c :: rest =>
    match stripRightChars rest with
    | [] => if isPyWs c then [] else [c]
    | r => c :: r

/-- Python `str.strip()` on the character list. -/
def stripChars (l : List Char) : List Char :=
  stripRightChars (l.dropWhile isPyWs)

/-- Python `str.strip()`. -/
def pyStrip (s : String) : String := String.mk (stripChars s.data)

/-- Python `str.rstrip()`. -/
def pyRStrip (s : String) : String := String.mk (stripRightChars s.data)

/-- Python `str.lower()` (per-character simplification; sufficient for the
ASCII/Cyrillic data handled by the source). -/
def pyLower (s : String) : String := String.mk (s.data.map Char.toLower)

/-- `pat` is a leading segment of `l`. -/
def leadsChars : List Char → List Char → Bool
  | [], _ => true
  | _ :: _, [] => false
  | p :: ps, c :: cs => p = c && leadsChars ps cs

/-- `pat` occurs as a contiguous run inside `l`. -/
def containsChars : List Char → List Char → Bool
  | [], pat => pat.isEmpty
  | c :: rest, pat => leadsChars pat (c :: rest) || containsChars rest pat

/-- Python `needle in haystack` on strings. -/
def pyContains (hay needle : String) : Bool := containsChars hay.data needle.data

/-- Python `str.startswith`. -/
def pyStartsWith (s p : String) : Bool := leadsChars p.data s.data

/-- Python `sep.join(parts)`. -/
def pyJoin (sep : String) : List String → String
  | [] => ""
  | [s] => s
  | s :: rest => s ++ sep ++ pyJoin sep rest

/-- Digit accumulation for `int(...)`. -/
def parseDigitsGo : List Char → Nat → Option Nat
  | [], acc => some acc
  | c :: rest, acc =>
    if c.isDigit then parseDigitsGo rest (acc * 10 + (c.toNat - '0'.toNat)) else none

/-- Python `int(string)`: surrounding whitespace, an optional sign, then one
or more ASCII digits (digit-group underscores are not modelled). -/
def parsePyIntChars (l : List Char) : Option Int :=
  match stripChars l with
  | '-' :: rest => if rest = [] then none else (parseDigitsGo rest 0).map (fun n => -(n : Int))
  | '+' :: rest => if rest = [] then none else (parseDigitsGo rest 0).map (fun n => (n : Int))
  | rest => if rest = [] then none else (parseDigitsGo rest 0).map (fun n => (n : Int))

/-- Python `int(string)`. -/
def parsePyInt (s : String) : Option Int := parsePyIntChars s.data

/-! ### config.py -/

/-- A process environment: variable name to value, when the variable is set. -/
def EnvMap := String → Option String

/-- Python truthiness of `env.get(name)`: `None` and the empty string are
falsy. -/
def pyTruthy : Option String → Bool
  | none => false
  | some s => s != ""

inductive SettingsError
  | missingVars (message : String)
  | badSourceUserId (message : String)

structure Settings where
  deepseek_api_key : String
  telegram_bot_username : String
  telegram_bot_token : String
  telegram_target_channel : String
  telegram_source_user_id : Int

/-- The required settings together with their accepted environment variable
names, in declaration order (config.py lines 61-70). -/
def requiredSettings : List (String × List String) :=
  [("deepseek_api_key", ["DEEPSEEK_APPI"]),
   ("telegram_bot_username", ["USERNAMETELERGRAMBOT"]),
   ("telegram_bot_token", ["TELEGRAMKEY"]),
   ("telegram_target_channel", ["TELEGRAMKANAL_ID_S_MINYSOM_V_NA4ALE", "TELEGRAMKANAL"]),
   ("telegram_source_user_id", ["TG_ISTO4NIK_ID", "TGUSERID"])]

/-- Error-message entry for one unresolved setting (config.py lines 82-85). -/
def formatEntry (names : List String) : String :=
  pyJoin " или " names ++
    (if names.length > 1 then " (укажите хотя бы одну переменную)" else "")

/-- The inner name scan: the first name bound to a truthy (non-empty) value
wins (config.py lines 76-80). -/
def resolveOne (env : EnvMap) : List String → Option String
  | [] => none
  | n :: rest =>
    match env n with
    | some v => if v != "" then some v else resolveOne env rest
    | none => resolveOne env rest

/-- The outer loop over the required settings: resolved pairs and formatted
missing entries, each kept in declaration order (config.py lines 72-85). -/
def resolveRequiredGo (env : EnvMap) :
    List (String × List String) → List (String × String) × List String
  | [] => ([], [])
  | e :: rest =>
    let r := resolveRequiredGo env rest
    match resolveOne env e.2 with
    | some v => ((e.1, v) :: r.1, r.2)
    | none => (r.1, formatEntry e.2 :: r.2)

/-- Association-list lookup (a Python dict whose keys are distinct). -/
def lookupPairs : List (String × String) → String → Option String
  | [], _ => none
  | (k, v) :: rest, key => if k = key then some v else lookupPairs rest key

/-- String order used by Python `sorted` (code-point lexicographic). -/
def strLeBool (a b : String) : Bool := decide (a < b) || a == b

/-- Ordered insertion for `pySortedStrings`. -/
def insertSorted (x : String) : List String → List String
  | [] => [x]
  | y :: rest => if strLeBool x y then x :: y :: rest else y :: insertSorted x rest

/-- Python `sorted` on strings, as an insertion sort (only membership in the
result matters to the claims). -/
def pySortedStrings (l : List String) : List String := l.foldr insertSorted []

/-- The message of the missing-variables error (config.py lines 87-91). -/
def missingMessage (missing : List String) : String :=
  "Отсутствуют обязательные переменные окружения: " ++
    pyJoin ", " (pySortedStrings missing)

/-- `Settings.from_env` (config.py lines 44-106). -/
def Settings.from_env (env : EnvMap) : Except SettingsError Settings :=
  let rm := resolveRequiredGo env requiredSettings
  if rm.2 ≠ [] then
    .error (.missingVars (missingMessage rm.2))
  else
    match parsePyInt ((lookupPairs rm.1 "telegram_source_user_id").getD "") with
    | none => .error (.badSourceUserId "TG_ISTO4NIK_ID (или TGUSERID) должен быть целым числом")
    | some uid =>
      .ok ⟨(lookupPairs rm.1 "deepseek_api_key").getD "",
           (lookupPairs rm.1 "telegram_bot_username").getD "",
           (lookupPairs rm.1 "telegram_bot_token").getD "",
           (lookupPairs rm.1 "telegram_target_channel").getD "",
           uid⟩

/-- `Settings.mask_secret` (config.py lines 25-33):
`value[:2] + "***" + value[-2:]`, the empty string passed through. -/
def Settings.mask_secret (value : String) : String :=
  if value = "" then value
  else String.mk (value.data.take 2 ++ ('*' :: '*' :: '*' :: []) ++
        value.data.drop (value.data.length - 2))

/-! ### telegram_client.py -/

/-- A JSON scalar found in one of the sender-identity slots; Python applies
`int(...)` to it. -/
inductive RawId
  | intVal (n : Int)
  | strVal (s : String)
deriving DecidableEq

/-- `int(raw)` on a sender-identity slot value. -/
def parseRawId : RawId → Option Int
  | .intVal n => some n
  | .strVal s => parsePyInt s

/-- The fields of `update["channel_post"]` / `update["message"]` read by
`fetch_new_messages`; `none` stands for an absent (or falsy) field, so
`sender_chat_id` models `(message_block.get("sender_chat") or {}).get("id")`
and likewise for the other two identity slots. -/
structure MessageBlock where
  message_id : Option Int
  text : Option String
  caption : Option String
  sender_chat_id : Option RawId
  from_id : Option RawId
  chat_id : Option RawId
deriving DecidableEq

/-- One element of the `result` array of `getUpdates`. -/
structure RawUpdate where
  update_id : Int
  channel_post : Option MessageBlock
  message : Option MessageBlock
deriving DecidableEq

/-- `TelegramMessage` (telegram_client.py lines 26-33). -/
structure TelegramMessage where
  update_id : Int
  message_id : Int
  text : String
deriving DecidableEq

/-- `update.get("channel_post") or update.get("message") or {}`
(telegram_client.py line 147); the empty dict is the block with every field
absent. -/
def messageBlockOf (u : RawUpdate) : MessageBlock :=
  match u.channel_post with
  | some b => b
  | none =>
    match u.message with
    | some b => b
    | none => ⟨none, none, none, none, none, none⟩

/-- Sender-identity extraction (telegram_client.py lines 148-165): the first
of `sender_chat.id`, `from.id`, `chat.id` that is present and parses as an
integer; a present but unparseable candidate falls through to the next one. -/
def extractSenderId (b : MessageBlock) : Option Int :=
  match b.sender_chat_id.bind parseRawId with
  | some n => some n
  | none =>
    match b.from_id.bind parseRawId with
    | some n => some n
    | none => b.chat_id.bind parseRawId

/-- `message_block.get("text") or message_block.get("caption")`
(telegram_client.py line 170): an absent or empty `text` falls back to the
caption. -/
def effectiveText (b : MessageBlock) : Option String :=
  match b.text with
  | some s => if s != "" then some s else b.caption
  | none => b.caption

/-- The relevance part of one update-loop iteration (telegram_client.py
lines 147-179): `some` exactly when the update contributes a message. -/
def toRelevantMessage (src : Int) (u : RawUpdate) : Option TelegramMessage :=
  let b := messageBlockOf u
  match extractSenderId b with
  | none => none
  | some sid =>
    if sid ≠ src then none
    else
      match effectiveText b with
      | none => none
      | some t =>
        if pyStrip t = "" then none
        else some ⟨u.update_id, b.message_id.getD 0, pyStrip t⟩

/-- `new_last_update = max(new_last_update or update_id, update_id)`
(telegram_client.py line 145); Python `or` treats both `None` and the
integer `0` as falsy. -/
def cursorStep (acc : Option Int) (uid : Int) : Option Int :=
  some (max (match acc with
             | none => uid
             | some v => if v = 0 then uid else v) uid)

/-- The update loop of `fetch_new_messages` (telegram_client.py
lines 139-179), carrying the collected messages and the running cursor. -/
def processUpdatesGo (src : Int) :
    List RawUpdate → List TelegramMessage → Option Int →
      List TelegramMessage × Option Int
  | [], msgs, cur => (msgs, cur)
  | u :: rest, msgs, cur =>
    let cur' := cursorStep cur u.update_id
    match toRelevantMessage src u with
    | some m => processUpdatesGo src rest (msgs ++ [m]) cur'
    | none => processUpdatesGo src rest msgs cur'

/-- Parsing/filtering of a successful `getUpdates` response body
(telegram_client.py lines 139-182). -/
def processUpdates (src : Int) (cur : Option Int) (us : List RawUpdate) :
    List TelegramMessage × Option Int :=
  processUpdatesGo src us [] cur

/-- The parsed body of a `getUpdates` response: the `ok` flag (absent means
falsy) and the `result` array (absent means empty). -/
structure GetUpdatesData where
  ok : Bool
  result : List RawUpdate
deriving DecidableEq

/-- Outcome of one complete `AsyncRetrying` fetch attempt: either a parsed
body, or a `RetryError` whose last attempt carried the given HTTP status
(`none` for a transport error without a status). -/
inductive FetchAttemptOutcome
  | success (data : GetUpdatesData)
  | httpError (status : Option Nat)
deriving DecidableEq

inductive FetchError
  | webhookConflictUnresolved
  | updatesFailed
  | apiNotOk
  | scriptExhausted
deriving DecidableEq

/-- The `while True` conflict-recovery loop of `fetch_new_messages`
(telegram_client.py lines 95-134) over a script of per-attempt outcomes.
The counter counts `_delete_webhook` calls (modelled as succeeding, as in
the scenarios of the claims); `scriptExhausted` marks a script that ended
while the source loop would have kept polling. -/
def getUpdatesLoop :
    List FetchAttemptOutcome → Bool → Nat → Except FetchError GetUpdatesData × Nat
  | [], _, deletes => (.error .scriptExhausted, deletes)
  | .success data :: _, _, deletes => (.ok data, deletes)
  | .httpError status :: rest, handled, deletes =>
    if status = some 409 then
      if handled then (.error .webhookConflictUnresolved, deletes)
      else getUpdatesLoop rest true (deletes + 1)
    else (.error .updatesFailed, deletes)

/-- `fetch_new_messages` (telegram_client.py lines 70-182): the retry and
conflict-recovery loop, the `ok` check, then the relevance/cursor fold.
Returns the result together with the number of `_delete_webhook` calls. -/
def fetch_new_messages (src : Int) (last_update_id : Option Int)
    (outcomes : List FetchAttemptOutcome) :
    Except FetchError (List TelegramMessage × Option Int) × Nat :=
  match getUpdatesLoop outcomes false 0 with
  | (.ok data, d) =>
    if data.ok then (.ok (processUpdates src last_update_id data.result), d)
    else (.error .apiNotOk, d)
  | (.error e, d) => (.error e, d)

/-! ### link_selector.py -/

/-- `EXCHANGE_LINKS` (link_selector.py lines 9-24). -/
def EXCHANGE_LINKS : List (String × String) :=
  [("okx",
    "\n\n💼 OKX для новых трейдеров:\n• Регистрация: https://www.okx.com/join/your_ref\n• Приложение iOS: https://apps.apple.com/app/okx/id1327268470\n• Приложение Android: https://play.google.com/store/apps/details?id=com.okinc.okex.gp\n"),
   ("binance",
    "\n\n💼 Binance — топовая ликвидность:\n• Регистрация: https://accounts.binance.com/register?ref=YOURCODE\n• Платформа Web: https://www.binance.com\n• Мобильное приложение: https://www.binance.com/en/download\n")]

/-- `KEYWORDS` (link_selector.py lines 26-29), keeping the literal word of
each `\b...\b` pattern. -/
def KEYWORDS : List (String × List String) :=
  [("okx", ["okx", "окх"]), ("binance", ["binance", "бинанс"])]

/-- The `\w` class for the patterns of link_selector.py: ASCII alphanumerics,
the underscore, and the Cyrillic block (enough for the two keyword lists). -/
def isWordChar (c : Char) : Bool :=
  c.isAlphanum || c = '_' || (0x400 ≤ c.toNat && c.toNat ≤ 0x4FF)

/-- `word` occurs at the head of `l` with word boundaries on both sides;
`before` is the character just before the current position, if any. -/
def isWordAt (word : List Char) (before : Option Char) (l : List Char) : Bool :=
  leadsChars word l &&
    (match before with
     | none => true
     | some c => !isWordChar c) &&
    (match l.drop word.length with
     | [] => true
     | c :: _ => !isWordChar c)

/-- Scan for a whole-word occurrence. -/
def searchWordGo (word : List Char) (before : Option Char) : List Char → Bool
  | [] => isWordAt word before []
  | c :: rest => isWordAt word before (c :: rest) || searchWordGo word (some c) rest

/-- `re.search(r"\bword\b", text)` for a literal word. -/
def searchWord (word : String) (text : String) : Bool :=
  searchWordGo word.data none text.data

/-- `detect_exchange` (link_selector.py lines 32-39): the first exchange one
of whose patterns matches the lowercased text. -/
def detect_exchange (text : String) : Option String :=
  let normalized := pyLower text
  (KEYWORDS.filterMap
    (fun e => if e.2.any (fun w => searchWord w normalized) then some e.1 else none)).head?

/-- `append_links` (link_selector.py lines 42-49). -/
def append_links (text : String) : String :=
  match detect_exchange text with
  | none => text
  | some ex => pyRStrip text ++ (lookupPairs EXCHANGE_LINKS ex).getD ""

/-! ### main.py -/

/-- A parsed JSON document, at the granularity `read_last_update_id`
distinguishes. -/
inductive JsonValue
  | nullVal
  | boolVal (b : Bool)
  | intVal (n : Int)
  | floatVal
  | strVal (s : String)
  | arrVal (xs : List JsonValue)
  | objVal (fields : List (String × JsonValue))

/-- Contents of the state file as `read_last_update_id` classifies them
(main.py lines 25-56). -/
inductive StateFileDoc
  | missing
  | emptyFile
  | malformed
  | jsonDoc (v : JsonValue)

/-- `payload.get(...)` on a non-dict JSON value raises `AttributeError`. -/
inductive ReadError
  | attributeError

/-- Lookup in the field list of a JSON object (keys are distinct after
`json.loads`). -/
def lookupJson : List (String × JsonValue) → String → Option JsonValue
  | [], _ => none
  | (k, v) :: rest, key => if k = key then some v else lookupJson rest key

/-- `read_last_update_id` (main.py lines 25-56).  A Boolean field passes the
`isinstance(last_update_id, int)` check because Python `bool` is a subclass
of `int`, and is returned as the corresponding integer. -/
def read_last_update_id : StateFileDoc → Except ReadError (Option Int)
  | .missing => .ok none
  | .emptyFile => .ok none
  | .malformed => .ok none
  | .jsonDoc (.objVal fields) =>
    match lookupJson fields "last_update_id" with
    | some (.intVal n) => .ok (some n)
    | some (.boolVal b) => .ok (some (if b then 1 else 0))
    | _ => .ok none
  | .jsonDoc _ => .error .attributeError

/-- `write_last_update_id` (main.py lines 59-69): the document the function
serialises to the state file. -/
def write_last_update_id (n : Int) : StateFileDoc :=
  .jsonDoc (.objVal [("last_update_id", .intVal n)])

/-- `POPULAR_HASHTAGS` (main.py line 20). -/
def POPULAR_HASHTAGS : String := "#crypto #bitcoin #trading #altcoins #defi"

/-- The emoji constant of main.py line 21 (named `EMOJI_` + `PREFIX` there;
renamed here). -/
def EMOJI_BADGE : String := "🚀"

/-- `prepare_post` (main.py lines 90-100). -/
def prepare_post (text : String) : String :=
  let stripped := pyStrip text
  let s1 := if pyStartsWith stripped EMOJI_BADGE then stripped
            else EMOJI_BADGE ++ " " ++ stripped
  if pyContains (pyLower s1) (pyLower POPULAR_HASHTAGS) then s1
  else pyRStrip s1 ++ "\n\n" ++ POPULAR_HASHTAGS

/-- One recorded remote call of `_process_messages`. -/
inductive ProcStep
  | adaptCall (t : String)
  | publishCall (t : String)
deriving DecidableEq

/-- `_process_messages` (main.py lines 72-87): `adapt` models
`DeepSeekClient.adapt_post` and `publish` models
`TelegramClient.publish_post`; every remote call is recorded in order, and
the counter mirrors `processed`. -/
def processMessagesGo {ε : Type} (adapt : String → Except ε String)
    (publish : String → Except ε Unit) :
    List TelegramMessage → Nat → Except ε Nat × List ProcStep
  | [], n => (.ok n, [])
  | msg :: rest, n =>
    match adapt msg.text with
    | .error e => (.error e, [.adaptCall msg.text])
    | .ok adapted =>
      let enriched := append_links (prepare_post adapted)
      match publish enriched with
      | .error e => (.error e, [.adaptCall msg.text, .publishCall enriched])
      | .ok _ =>
        let r := processMessagesGo adapt publish rest (n + 1)
        (r.1, .adaptCall msg.text :: .publishCall enriched :: r.2)

/-- `_process_messages` from a fresh cycle. -/
def processMessages {ε : Type} (adapt : String → Except ε String)
    (publish : String → Except ε Unit) (msgs : List TelegramMessage) :
    Except ε Nat × List ProcStep :=
  processMessagesGo adapt publish msgs 0

/-- The texts `adapt` was called on, in call order: the messages attempted. -/
def adaptTexts : List ProcStep → List String
  | [] => []
  | .adaptCall t :: rest => t :: adaptTexts rest
  | .publishCall _ :: rest => adaptTexts rest

/-- The batch selection of `poll_once` (main.py lines 116-121): the empty
batch is returned untouched, and a batch of more than two messages is cut to
`messages[-2:]`.  Note the cursor argument is not consulted. -/
def pollOnceSelected (_last_update_id : Option Int)
    (messages : List TelegramMessage) : List TelegramMessage :=
  if messages.isEmpty then []
  else if messages.length > 2 then messages.drop (messages.length - 2)
  else messages

/-- The batch selection of one `poll_loop` iteration (main.py lines
142-144): the cut to `messages[-2:]` happens only when the iteration started
with no cursor. -/
def pollLoopSelected (previous_last_update_id : Option Int)
    (messages : List TelegramMessage) : List TelegramMessage :=
  if messages.isEmpty then []
  else if previous_last_update_id.isNone && messages.length > 2 then
    messages.drop (messages.length - 2)
  else messages

/-- `pat` occurs verbatim inside `s` (used to state that an error message
lists a variable name). -/
def strContainsP (s pat : String) : Prop :=
  ∃ a b : List Char, s.data = a ++ pat.data ++ b

/-! ### Theorems -/

/-- C10: the masking helper of short secrets.  For a non-empty value of at
most four characters the output is `first two ++ "***" ++ last two`, and the
first-two/last-two parts overlap so that together they spell out the whole
value: the secret is fully recoverable from its masked form. -/
theorem claimC10_mask_short_secret_recoverable (v : String) (h1 : v ≠ "")
    (h2 : v.data.length ≤ 4) :
    Settings.mask_secret v =
      String.mk (v.data.take 2 ++ ('*' :: '*' :: '*' :: []) ++
        v.data.drop (v.data.length - 2)) ∧
    v.data = v.data.take 2 ++ (v.data.drop (v.data.length - 2)).drop (4 - v.data.length) ∧
    Settings.mask_secret "abc" = "ab***bc" ∧
    Settings.mask_secret "a" = "a***a" := by
  refine ⟨by rw [Settings.mask_secret, if_neg h1], ?_, by decide, by decide⟩
  have hne : v.data ≠ [] := by
    intro hd
    apply h1
    have : v = String.mk v.data := rfl
    rw [this, hd]
  match hl : v.data with
  | [] => exact absurd hl hne
  | [a] => rfl
  | [a, b] => rfl
  | [a, b, c] => rfl
  | [a, b, c, d] => rfl
  | a :: b :: c :: d :: e :: t => rw [hl] at h2; simp at h2

/-- C10 witness at the concrete secret `"abc"`. -/
theorem claimC10_witness :
    Settings.mask_secret "abc" = "ab***bc" ∧
    ("abc" : String).data =
      ("abc" : String).data.take 2 ++
        (("abc" : String).data.drop (("abc" : String).data.length - 2)).drop
          (4 - ("abc" : String).data.length) :=
  ⟨(claimC10_mask_short_secret_recoverable "abc" (by decide) (by decide)).2.2.1,
   (claimC10_mask_short_secret_recoverable "abc" (by decide) (by decide)).2.1⟩

/-- C1 (divergence witness): `poll_once` cuts the batch to the last two
messages even though the cursor is present (`last_update_id = 10`), exactly
the warm-start scenario of the claim (and of the repository's own test
`test_poll_once_uses_all_messages_with_existing_last_update`, which the code
fails): the four fetched messages are not all processed. -/
theorem claimC1_poll_once_truncates_despite_cursor :
    pollOnceSelected (some 10)
        [⟨11, 101, "m1"⟩, ⟨12, 102, "m2"⟩, ⟨13, 103, "m3"⟩, ⟨14, 104, "m4"⟩] =
      [⟨13, 103, "m3"⟩, ⟨14, 104, "m4"⟩] ∧
    pollOnceSelected (some 10)
        [⟨11, 101, "m1"⟩, ⟨12, 102, "m2"⟩, ⟨13, 103, "m3"⟩, ⟨14, 104, "m4"⟩] ≠
      [⟨11, 101, "m1"⟩, ⟨12, 102, "m2"⟩, ⟨13, 103, "m3"⟩, ⟨14, 104, "m4"⟩] ∧
    pollLoopSelected (some 10)
        [⟨11, 101, "m1"⟩, ⟨12, 102, "m2"⟩, ⟨13, 103, "m3"⟩, ⟨14, 104, "m4"⟩] =
      [⟨11, 101, "m1"⟩, ⟨12, 102, "m2"⟩, ⟨13, 103, "m3"⟩, ⟨14, 104, "m4"⟩] := by
  refine ⟨by decide, by decide, by decide⟩

/-- C2: webhook-conflict recovery is bounded to one remediation per fetch.
A 409 on the first attempt followed by a success yields the parsed messages
with exactly one `_delete_webhook` call; two consecutive 409s fail with the
unresolved-conflict error, still with exactly one `_delete_webhook` call. -/
theorem claimC2_conflict_recovery_bounded (src : Int) (cur : Option Int)
    (data : GetUpdatesData) (rest rest2 : List FetchAttemptOutcome)
    (hok : data.ok = true) :
    fetch_new_messages src cur
        (.httpError (some 409) :: .success data :: rest) =
      (.ok (processUpdates src cur data.result), 1) ∧
    fetch_new_messages src cur
        (.httpError (some 409) :: .httpError (some 409) :: rest2) =
      (.error .webhookConflictUnresolved, 1) := by
  constructor <;> simp [fetch_new_messages, getUpdatesLoop, hok]

/-- C2 witness: a concrete conflict-then-success script and a concrete
double-conflict script. -/
theorem claimC2_witness :
    fetch_new_messages 0 none
        (.httpError (some 409) :: .success ⟨true, []⟩ :: []) =
      (.ok (processUpdates 0 none []), 1) ∧
    fetch_new_messages 0 none
        (.httpError (some 409) :: .httpError (some 409) :: []) =
      (.error .webhookConflictUnresolved, 1) :=
  claimC2_conflict_recovery_bounded 0 none ⟨true, []⟩ [] [] rfl

/-- C7 counterexample: a state file holding `{"last_update_id": true}` is a
JSON object whose `last_update_id` field is not an integer, yet
`read_last_update_id` does not yield "no cursor": Python's `bool` is a
subclass of `int`, so `isinstance(True, int)` holds and `True` is returned
as the cursor. -/
theorem claimC7_counterexample_bool_field :
    read_last_update_id (.jsonDoc (.objVal [("last_update_id", .boolVal true)])) =
      .ok (some 1) ∧
    read_last_update_id (.jsonDoc (.objVal [("last_update_id", .boolVal true)])) ≠
      .ok none := by
  refine ⟨rfl, fun h => ?_⟩
  injection h with h'
  exact Option.noConfusion h'

/-- C7 as amended: writing cursor `N` and reading it back yields `N`; a
missing, empty, or malformed-JSON state file yields "no cursor" without
raising; and a JSON object whose `last_update_id` field is absent, or is
neither an integer nor a Boolean, yields "no cursor" without raising (a
Boolean field is accepted as a cursor because Python booleans are
integers). -/
theorem claimC7_cursor_roundtrip_amended :
    (∀ n : Int, read_last_update_id (write_last_update_id n) = .ok (some n)) ∧
    read_last_update_id .missing = .ok none ∧
    read_last_update_id .emptyFile = .ok none ∧
    read_last_update_id .malformed = .ok none ∧
    (∀ fields, lookupJson fields "last_update_id" = none →
      read_last_update_id (.jsonDoc (.objVal fields)) = .ok none) ∧
    (∀ fields j, lookupJson fields "last_update_id" = some j →
      (∀ k, j ≠ .intVal k) → (∀ b, j ≠ .boolVal b) →
      read_last_update_id (.jsonDoc (.objVal fields)) = .ok none) := by
  refine ⟨fun n => rfl, rfl, rfl, rfl, ?_, ?_⟩
  · intro fields h
    simp only [read_last_update_id, h]
  · intro fields j h hint hbool
    cases j with
    | intVal k => exact absurd rfl (hint k)
    | boolVal b => exact absurd rfl (hbool b)
    | nullVal => simp only [read_last_update_id, h]
    | floatVal => simp only [read_last_update_id, h]
    | strVal s => simp only [read_last_update_id, h]
    | arrVal xs => simp only [read_last_update_id, h]
    | objVal fs => simp only [read_last_update_id, h]

/-- C7 witness: round trip at `N = 7` and a string-valued field. -/
theorem claimC7_witness :
    read_last_update_id (write_last_update_id 7) = .ok (some 7) ∧
    read_last_update_id (.jsonDoc (.objVal [("last_update_id", .strVal "x")])) =
      .ok none :=
  ⟨claimC7_cursor_roundtrip_amended.1 7,
   claimC7_cursor_roundtrip_amended.2.2.2.2.2 [("last_update_id", .strVal "x")]
     (.strVal "x") rfl (fun _ h => JsonValue.noConfusion h)
     (fun _ h => JsonValue.noConfusion h)⟩

/-- When every message adapts and publishes successfully, the processing
loop finishes with `processed = n + length` and attempts exactly the given
messages, in order. -/
theorem processMessagesGo_all_ok {ε : Type} (adapt : String → Except ε String)
    (publish : String → Except ε Unit)
    (msgs : List TelegramMessage) (n : Nat)
    (hok : ∀ p ∈ msgs, ∃ a, adapt p.text = .ok a ∧
      publish (append_links (prepare_post a)) = .ok ()) :
    (processMessagesGo adapt publish msgs n).1 = .ok (n + msgs.length) ∧
    adaptTexts (processMessagesGo adapt publish msgs n).2 =
      msgs.map (fun m => m.text) := by
  induction msgs generalizing n with
  | nil => exact ⟨rfl, rfl⟩
  | cons m rest ih =>
    obtain ⟨a, ha, hp⟩ := hok m (by simp)
    have hrest := ih (n + 1) (fun q hq => hok q (by simp [hq]))
    refine ⟨?_, ?_⟩
    · simp only [processMessagesGo, ha, hp]
      rw [hrest.1]
      congr 1
      simp [List.length_cons]
      omega
    · simp only [processMessagesGo, ha, hp, adaptTexts]
      rw [hrest.2]
      simp

/-- When every message before `m` succeeds and `m` itself fails (in its
transform or its publish), the processing loop returns that failure and
attempts exactly the messages up to and including `m`: nothing after `m` is
touched. -/
theorem processMessagesGo_fail {ε : Type} (adapt : String → Except ε String)
    (publish : String → Except ε Unit)
    (pre : List TelegramMessage) (m : TelegramMessage)
    (post : List TelegramMessage) (n : Nat)
    (hpre : ∀ p ∈ pre, ∃ a, adapt p.text = .ok a ∧
      publish (append_links (prepare_post a)) = .ok ())
    (hm : (∃ e, adapt m.text = .error e) ∨
      (∃ a e, adapt m.text = .ok a ∧
        publish (append_links (prepare_post a)) = .error e)) :
    (∃ e, (processMessagesGo adapt publish (pre ++ m :: post) n).1 = .error e) ∧
    adaptTexts (processMessagesGo adapt publish (pre ++ m :: post) n).2 =
      (pre ++ [m]).map (fun x => x.text) := by
  induction pre generalizing n with
  | nil =>
    rcases hm with ⟨e, he⟩ | ⟨a, e, ha, hpub⟩
    · refine ⟨⟨e, ?_⟩, ?_⟩ <;> simp [processMessagesGo, he, adaptTexts]
    · refine ⟨⟨e, ?_⟩, ?_⟩ <;> simp [processMessagesGo, ha, hpub, adaptTexts]
  | cons p rest ih =>
    obtain ⟨a, ha, hp⟩ := hpre p (by simp)
    have hrest := ih (n + 1) (fun q hq => hpre q (by simp [hq]))
    obtain ⟨⟨e, he⟩, htr⟩ := hrest
    refine ⟨⟨e, ?_⟩, ?_⟩
    · simp only [List.cons_append, processMessagesGo, ha, hp]
      exact he
    · simp only [List.cons_append, processMessagesGo, ha, hp, adaptTexts,
        List.append_eq]
      rw [htr]
      simp

/-- C4: on a cold start (absent cursor) with three relevant messages, both
`poll_once` and the first `poll_loop` iteration keep only the last two
messages in fetch order, and those two are the only messages processed (and
published) when the remote calls succeed. -/
theorem claimC4_cold_start_last_two {ε : Type} (m1 m2 m3 : TelegramMessage)
    (adapt : String → Except ε String) (publish : String → Except ε Unit)
    (hA : ∀ t, ∃ a, adapt t = .ok a) (hP : ∀ t, publish t = .ok ()) :
    pollOnceSelected none [m1, m2, m3] = [m2, m3] ∧
    pollLoopSelected none [m1, m2, m3] = [m2, m3] ∧
    adaptTexts (processMessages adapt publish (pollOnceSelected none [m1, m2, m3])).2 =
      [m2.text, m3.text] ∧
    (processMessages adapt publish (pollOnceSelected none [m1, m2, m3])).1 = .ok 2 := by
  have hsel : pollOnceSelected none [m1, m2, m3] = [m2, m3] := by
    simp [pollOnceSelected]
  have hok : ∀ p ∈ [m2, m3], ∃ a, adapt p.text = .ok a ∧
      publish (append_links (prepare_post a)) = .ok () := by
    intro p _
    obtain ⟨a, ha⟩ := hA p.text
    exact ⟨a, ha, hP _⟩
  have h := processMessagesGo_all_ok adapt publish [m2, m3] 0 hok
  refine ⟨hsel, by simp [pollLoopSelected], ?_, ?_⟩
  · rw [hsel]
    exact h.2
  · rw [hsel]
    exact h.1

/-- C4 witness at three concrete messages and always-succeeding remote
calls. -/
theorem claimC4_witness :
    pollOnceSelected none [⟨1, 1, "a"⟩, ⟨2, 2, "b"⟩, ⟨3, 3, "c"⟩] =
      [⟨2, 2, "b"⟩, ⟨3, 3, "c"⟩] ∧
    pollLoopSelected none [⟨1, 1, "a"⟩, ⟨2, 2, "b"⟩, ⟨3, 3, "c"⟩] =
      [⟨2, 2, "b"⟩, ⟨3, 3, "c"⟩] ∧
    adaptTexts (processMessages (fun t => (.ok t : Except Unit String))
        (fun _ => .ok ())
        (pollOnceSelected none [⟨1, 1, "a"⟩, ⟨2, 2, "b"⟩, ⟨3, 3, "c"⟩])).2 =
      ["b", "c"] ∧
    (processMessages (fun t => (.ok t : Except Unit String)) (fun _ => .ok ())
        (pollOnceSelected none [⟨1, 1, "a"⟩, ⟨2, 2, "b"⟩, ⟨3, 3, "c"⟩])).1 =
      .ok 2 :=
  claimC4_cold_start_last_two ⟨1, 1, "a"⟩ ⟨2, 2, "b"⟩ ⟨3, 3, "c"⟩ _ _
    (fun t => ⟨t, rfl⟩) (fun _ => rfl)

/-- C6: processing is strictly sequential in fetch order; when message `m`
fails (adapt or publish) after a prefix of successes, the whole cycle
returns that failure to the caller, and the attempted messages are exactly
the prefix followed by `m` — nothing after `m` is ever attempted. -/
theorem claimC6_sequential_abort_on_failure {ε : Type}
    (adapt : String → Except ε String) (publish : String → Except ε Unit)
    (pre : List TelegramMessage) (m : TelegramMessage)
    (post : List TelegramMessage)
    (hpre : ∀ p ∈ pre, ∃ a, adapt p.text = .ok a ∧
      publish (append_links (prepare_post a)) = .ok ())
    (hm : (∃ e, adapt m.text = .error e) ∨
      (∃ a e, adapt m.text = .ok a ∧
        publish (append_links (prepare_post a)) = .error e)) :
    (∃ e, (processMessages adapt publish (pre ++ m :: post)).1 = .error e) ∧
    adaptTexts (processMessages adapt publish (pre ++ m :: post)).2 =
      (pre ++ [m]).map (fun x => x.text) :=
  processMessagesGo_fail adapt publish pre m post 0 hpre hm

/-- C6 witness: one successful message, then a message whose transform
fails, then one further message that is never attempted. -/
theorem claimC6_witness :
    (∃ e, (processMessages
        (fun t => if t = "bad" then (.error () : Except Unit String) else .ok t)
        (fun _ => .ok ())
        ([⟨1, 1, "good"⟩] ++ ⟨2, 2, "bad"⟩ :: [⟨3, 3, "after"⟩])).1 = .error e) ∧
    adaptTexts (processMessages
        (fun t => if t = "bad" then (.error () : Except Unit String) else .ok t)
        (fun _ => .ok ())
        ([⟨1, 1, "good"⟩] ++ ⟨2, 2, "bad"⟩ :: [⟨3, 3, "after"⟩])).2 =
      ["good", "bad"] := by
  simpa using claimC6_sequential_abort_on_failure
    (fun t => if t = "bad" then (.error () : Except Unit String) else .ok t)
    (fun _ => .ok ()) [⟨1, 1, "good"⟩] ⟨2, 2, "bad"⟩
    [⟨3, 3, "after"⟩]
    (by
      intro p hp
      simp only [List.mem_singleton] at hp
      subst hp
      exact ⟨"good", by simp, rfl⟩)
    (Or.inl ⟨(), by simp⟩)

/-- The update loop splits into relevance filtering and a pure cursor fold
over all fetched update ids. -/
theorem processUpdatesGo_spec (src : Int) (us : List RawUpdate)
    (msgs : List TelegramMessage) (cur : Option Int) :
    processUpdatesGo src us msgs cur =
      (msgs ++ us.filterMap (toRelevantMessage src),
       (us.map RawUpdate.update_id).foldl cursorStep cur) := by
  induction us generalizing msgs cur with
  | nil => simp [processUpdatesGo]
  | cons u rest ih =>
    cases h : toRelevantMessage src u with
    | some m => simp [processUpdatesGo, h, ih]
    | none => simp [processUpdatesGo, h, ih]

/-- On non-negative update ids the Python fold
`max(acc or uid, uid)` started from cursor `c` computes `foldl max c`. -/
theorem cursorFold_eq_foldl_max (ids : List Int) (c : Int)
    (hpos : ∀ i ∈ ids, 0 ≤ i) :
    ids.foldl cursorStep (some c) = some (ids.foldl max c) := by
  induction ids generalizing c with
  | nil => rfl
  | cons i rest ih =>
    have h0 : 0 ≤ i := hpos i (by simp)
    have hstep : cursorStep (some c) i = some (max c i) := by
      by_cases hc : c = 0
      · simp [cursorStep, hc, max_eq_right h0]
      · simp [cursorStep, hc]
    rw [List.foldl_cons, List.foldl_cons, hstep,
      ih (max c i) (fun j hj => hpos j (by simp [hj]))]

/-- The starting value never exceeds a left fold of `max`. -/
theorem le_foldl_max (ids : List Int) (c : Int) : c ≤ ids.foldl max c := by
  induction ids generalizing c with
  | nil => exact le_refl c
  | cons i rest ih => exact le_trans (le_max_left c i) (ih (max c i))

/-- A fold of the Python cursor step starting from a non-negative value
never goes below that value when every id is non-negative. -/
theorem cursorFold_start_le (ids : List Int) (hpos : ∀ i ∈ ids, 0 ≤ i)
    (v : Int) (hv : 0 ≤ v) (k : Int)
    (hk : ids.foldl cursorStep (some v) = some k) : v ≤ k := by
  induction ids generalizing v with
  | nil =>
    rw [List.foldl_nil] at hk
    injection hk with hk'
    omega
  | cons i rest ih =>
    have h0 : 0 ≤ i := hpos i (by simp)
    rw [List.foldl_cons] at hk
    have hw : cursorStep (some v) i = some (max (if v = 0 then i else v) i) := rfl
    rw [hw] at hk
    have hvw : v ≤ max (if v = 0 then i else v) i := by
      by_cases hv0 : v = 0
      · simp [hv0]
        omega
      · simp [hv0]
    have hw0 : 0 ≤ max (if v = 0 then i else v) i :=
      le_trans h0 (le_max_right _ i)
    exact le_trans hvw
      (ih (fun j hj => hpos j (by simp [hj])) _ hw0 hk)

/-- Every fetched id is bounded by the final cursor of the Python fold,
whatever the starting cursor, as long as all ids are non-negative. -/
theorem cursorFold_mem_le (ids : List Int) (hpos : ∀ i ∈ ids, 0 ≤ i)
    (cur : Option Int) (i : Int) (hi : i ∈ ids) (k : Int)
    (hk : ids.foldl cursorStep cur = some k) : i ≤ k := by
  induction ids generalizing cur with
  | nil => cases hi
  | cons j rest ih =>
    have hj0 : 0 ≤ j := hpos j (by simp)
    rw [List.foldl_cons] at hk
    have hw : ∃ w, cursorStep cur j = some w ∧ j ≤ w ∧ 0 ≤ w := by
      cases cur with
      | none => exact ⟨max j j, rfl, le_max_left j j, le_trans hj0 (le_max_left j j)⟩
      | some v =>
        refine ⟨max (if v = 0 then j else v) j, rfl, le_max_right _ j,
          le_trans hj0 (le_max_right _ j)⟩
    obtain ⟨w, hwe, hjw, hw0⟩ := hw
    rw [hwe] at hk
    rcases List.mem_cons.mp hi with rfl | hmem
    · exact le_trans hjw
        (cursorFold_start_le rest (fun x hx => hpos x (by simp [hx])) w hw0 k hk)
    · exact ih (fun x hx => hpos x (by simp [hx])) (some w) hmem hk

/-- C3: for every cursor `c` and every successful fetch whose update ids are
non-negative (as update ids of the source API are), the returned cursor is
the maximum of all fetched update ids — including the irrelevant ones —
joined with `c`; it never falls below `c`; and with zero updates the cursor
comes back unchanged. -/
theorem claimC3_cursor_never_decreases (src : Int) (c : Int)
    (us : List RawUpdate) (hpos : ∀ u ∈ us, 0 ≤ u.update_id) :
    (processUpdates src (some c) us).2 =
      some ((us.map RawUpdate.update_id).foldl max c) ∧
    c ≤ (us.map RawUpdate.update_id).foldl max c ∧
    (∀ cur : Option Int, (processUpdates src cur []).2 = cur) := by
  refine ⟨?_, le_foldl_max _ c, fun cur => rfl⟩
  rw [processUpdates, processUpdatesGo_spec]
  exact cursorFold_eq_foldl_max _ c
    (fun i hi => by
      obtain ⟨u, hu, rfl⟩ := List.mem_map.mp hi
      exact hpos u hu)

/-- C3 witness: cursor 5 with one fetched update of id 7 (irrelevant: no
message block at all), and the empty fetch. -/
theorem claimC3_witness :
    (processUpdates 0 (some 5) [⟨7, none, none⟩]).2 =
      some (([⟨7, none, none⟩].map RawUpdate.update_id).foldl max 5) ∧
    (5 : Int) ≤ ([(⟨7, none, none⟩ : RawUpdate)].map RawUpdate.update_id).foldl max 5 ∧
    (∀ cur : Option Int, (processUpdates 0 cur []).2 = cur) :=
  claimC3_cursor_never_decreases 0 5 [⟨7, none, none⟩]
    (by
      intro u hu
      simp only [List.mem_singleton] at hu
      subst hu
      decide)

/-- Inversion of the relevance test: a produced message comes from an update
whose extracted sender identity is exactly the configured source and whose
effective text is non-empty after trimming. -/
theorem toRelevantMessage_some_inv (src : Int) (u : RawUpdate)
    (m : TelegramMessage) (h : toRelevantMessage src u = some m) :
    extractSenderId (messageBlockOf u) = some src ∧
    ∃ t, effectiveText (messageBlockOf u) = some t ∧ pyStrip t ≠ "" ∧
      m = ⟨u.update_id, (messageBlockOf u).message_id.getD 0, pyStrip t⟩ := by
  simp only [toRelevantMessage] at h
  cases hs : extractSenderId (messageBlockOf u) with
  | none =>
    simp only [hs] at h
    exact Option.noConfusion h
  | some sid =>
    simp only [hs] at h
    by_cases hsid : sid ≠ src
    · rw [if_pos hsid] at h
      exact Option.noConfusion h
    · push_neg at hsid
      subst hsid
      rw [if_neg (fun hc => hc rfl)] at h
      cases ht : effectiveText (messageBlockOf u) with
      | none =>
        simp only [ht] at h
        exact Option.noConfusion h
      | some t =>
        simp only [ht] at h
        by_cases htr : pyStrip t = ""
        · rw [if_pos htr] at h
          exact Option.noConfusion h
        · rw [if_neg htr] at h
          injection h with h'
          exact ⟨rfl, t, rfl, htr, h'.symm⟩

/-- C5: every returned message comes from a fetched update whose extracted
sender identity equals the configured source and whose text/caption is
non-empty after trimming; the returned cursor is the pure fold over all
fetched update ids, independent of relevance; and (for non-negative ids)
the final cursor is at least every fetched update id, so a skipped update
still advances the cursor past its id. -/
theorem claimC5_relevance_filter_and_cursor (src : Int) (cur : Option Int)
    (us : List RawUpdate) (hpos : ∀ u ∈ us, 0 ≤ u.update_id) :
    (∀ m ∈ (processUpdates src cur us).1, ∃ u ∈ us,
      toRelevantMessage src u = some m ∧
      extractSenderId (messageBlockOf u) = some src ∧
      ∃ t, effectiveText (messageBlockOf u) = some t ∧ pyStrip t ≠ "") ∧
    (processUpdates src cur us).2 =
      (us.map RawUpdate.update_id).foldl cursorStep cur ∧
    (∀ u ∈ us, ∀ k, (processUpdates src cur us).2 = some k →
      u.update_id ≤ k) := by
  have hspec := processUpdatesGo_spec src us [] cur
  rw [processUpdates, hspec]
  refine ⟨?_, rfl, ?_⟩
  · intro m hm
    simp only [List.nil_append] at hm
    obtain ⟨u, hu, hrel⟩ := List.mem_filterMap.mp hm
    obtain ⟨hsid, t, ht, htr, _⟩ := toRelevantMessage_some_inv src u m hrel
    exact ⟨u, hu, hrel, hsid, t, ht, htr⟩
  · intro u hu k hk
    exact cursorFold_mem_le (us.map RawUpdate.update_id)
      (fun i hi => by
        obtain ⟨w, hw, rfl⟩ := List.mem_map.mp hi
        exact hpos w hw)
      cur u.update_id (List.mem_map.mpr ⟨u, hu, rfl⟩) k hk

/-- C5 witness: one relevant update (matching sender, text needing a trim)
and one irrelevant update (wrong sender) whose id still moves the cursor. -/
theorem claimC5_witness :
    (∀ m ∈ (processUpdates 5 none
        [⟨1, some ⟨some 10, some " hi ", none, some (.intVal 5), none, none⟩, none⟩,
         ⟨2, some ⟨some 11, some "yo", none, some (.intVal 6), none, none⟩, none⟩]).1,
      ∃ u ∈ [(⟨1, some ⟨some 10, some " hi ", none, some (.intVal 5), none, none⟩,
              none⟩ : RawUpdate),
             ⟨2, some ⟨some 11, some "yo", none, some (.intVal 6), none, none⟩, none⟩],
        toRelevantMessage 5 u = some m ∧
        extractSenderId (messageBlockOf u) = some 5 ∧
        ∃ t, effectiveText (messageBlockOf u) = some t ∧ pyStrip t ≠ "") ∧
    (processUpdates 5 none
        [⟨1, some ⟨some 10, some " hi ", none, some (.intVal 5), none, none⟩, none⟩,
         ⟨2, some ⟨some 11, some "yo", none, some (.intVal 6), none, none⟩, none⟩]).2 =
      (([(⟨1, some ⟨some 10, some " hi ", none, some (.intVal 5), none, none⟩,
           none⟩ : RawUpdate),
         ⟨2, some ⟨some 11, some "yo", none, some (.intVal 6), none, none⟩,
           none⟩]).map RawUpdate.update_id).foldl cursorStep none ∧
    (∀ u ∈ [(⟨1, some ⟨some 10, some " hi ", none, some (.intVal 5), none, none⟩,
             none⟩ : RawUpdate),
            ⟨2, some ⟨some 11, some "yo", none, some (.intVal 6), none, none⟩, none⟩],
      ∀ k, (processUpdates 5 none
        [⟨1, some ⟨some 10, some " hi ", none, some (.intVal 5), none, none⟩, none⟩,
         ⟨2, some ⟨some 11, some "yo", none, some (.intVal 6), none, none⟩, none⟩]).2 =
          some k → u.update_id ≤ k) :=
  claimC5_relevance_filter_and_cursor 5 none _
    (by
      intro u hu
      rcases List.mem_cons.mp hu with rfl | hu2
      · decide
      · rcases List.mem_cons.mp hu2 with rfl | hu3
        · decide
        · cases hu3)

/-- Containment persists through concatenation on the right. -/
theorem strContainsP_append_right (s t pat : String) (h : strContainsP s pat) :
    strContainsP (s ++ t) pat := by
  obtain ⟨a, b, hab⟩ := h
  exact ⟨a, b ++ t.data, by rw [String.data_append, hab]; simp⟩

/-- Containment persists through concatenation on the left. -/
theorem strContainsP_append_left (s t pat : String) (h : strContainsP s pat) :
    strContainsP (t ++ s) pat := by
  obtain ⟨a, b, hab⟩ := h
  exact ⟨t.data ++ a, b, by rw [String.data_append, hab]; simp⟩

/-- Containment is transitive. -/
theorem strContainsP_trans (s p q : String) (h1 : strContainsP s p)
    (h2 : strContainsP p q) : strContainsP s q := by
  obtain ⟨a, b, hab⟩ := h1
  obtain ⟨a2, b2, hab2⟩ := h2
  exact ⟨a ++ a2, b2 ++ b, by rw [hab, hab2]; simp⟩

/-- Every element of the joined list occurs inside the join. -/
theorem pyJoin_contains (sep : String) (l : List String) (pat : String)
    (h : pat ∈ l) : strContainsP (pyJoin sep l) pat := by
  induction l with
  | nil => cases h
  | cons s rest ih =>
    cases rest with
    | nil =>
      simp only [List.mem_singleton] at h
      subst h
      exact ⟨[], [], by simp [pyJoin]⟩
    | cons s2 rest2 =>
      rcases List.mem_cons.mp h with rfl | hmem
      · refine ⟨[], sep.data ++ (pyJoin sep (s2 :: rest2)).data, ?_⟩
        simp [pyJoin, String.data_append]
      · obtain ⟨a, b, hab⟩ := ih hmem
        refine ⟨s.data ++ sep.data ++ a, b, ?_⟩
        simp [pyJoin, String.data_append, hab]

/-- A formatted missing-setting entry spells out each of its names. -/
theorem formatEntry_contains (names : List String) (n : String) (h : n ∈ names) :
    strContainsP (formatEntry names) n :=
  strContainsP_append_right _ _ _ (pyJoin_contains " или " names n h)

/-- Insertion keeps the inserted element. -/
theorem mem_insertSorted_self (x : String) (l : List String) :
    x ∈ insertSorted x l := by
  induction l with
  | nil => simp [insertSorted]
  | cons y rest ih => cases hc : strLeBool x y <;> simp [insertSorted, hc, ih]

/-- Insertion keeps the existing elements. -/
theorem mem_insertSorted_of_mem (x y : String) (l : List String) (h : x ∈ l) :
    x ∈ insertSorted y l := by
  induction l with
  | nil => cases h
  | cons z rest ih =>
    rcases List.mem_cons.mp h with rfl | hm
    · cases hc : strLeBool y x <;> simp [insertSorted, hc]
    · cases hc : strLeBool y z <;> simp [insertSorted, hc, ih hm, hm]

/-- Sorting keeps membership. -/
theorem mem_pySortedStrings (x : String) (l : List String) (h : x ∈ l) :
    x ∈ pySortedStrings l := by
  induction l with
  | nil => cases h
  | cons y rest ih =>
    simp only [pySortedStrings, List.foldr_cons]
    rcases List.mem_cons.mp h with rfl | hm
    · exact mem_insertSorted_self x _
    · exact mem_insertSorted_of_mem x y _ (by simpa [pySortedStrings] using ih hm)

/-- The rendered missing-variables message spells out each missing entry. -/
theorem missingMessage_contains (missing : List String) (m : String)
    (h : m ∈ missing) : strContainsP (missingMessage missing) m :=
  strContainsP_append_left _ _ _
    (pyJoin_contains ", " (pySortedStrings missing) m (mem_pySortedStrings m missing h))

/-- If every accepted name of a setting is unset or empty, the name scan
resolves to nothing. -/
theorem resolveOne_none_of_falsy (env : EnvMap) (names : List String)
    (h : ∀ n ∈ names, pyTruthy (env n) = false) : resolveOne env names = none := by
  induction names with
  | nil => rfl
  | cons n rest ih =>
    have hn := h n (by simp)
    have hrest := ih (fun m hm => h m (by simp [hm]))
    cases he : env n with
    | none => simp only [resolveOne, he]; exact hrest
    | some v =>
      rw [he] at hn
      simp only [pyTruthy] at hn
      simp only [resolveOne, he, hn, Bool.false_eq_true, if_false]
      exact hrest

/-- An unresolved setting contributes its formatted entry to the missing
list. -/
theorem resolveRequiredGo_missing_mem (env : EnvMap)
    (l : List (String × List String)) (e : String × List String) (he : e ∈ l)
    (hnone : resolveOne env e.2 = none) :
    formatEntry e.2 ∈ (resolveRequiredGo env l).2 := by
  induction l with
  | nil => cases he
  | cons f rest ih =>
    rcases List.mem_cons.mp he with rfl | hm
    · simp [resolveRequiredGo, hnone]
    · simp only [resolveRequiredGo]
      cases hr : resolveOne env f.2 <;> simp [hr, ih hm]

/-- A resolved setting contributes its pair to the resolved list. -/
theorem resolveRequiredGo_resolved_mem (env : EnvMap)
    (l : List (String × List String)) (e : String × List String) (v : String)
    (he : e ∈ l) (hsome : resolveOne env e.2 = some v) :
    (e.1, v) ∈ (resolveRequiredGo env l).1 := by
  induction l with
  | nil => cases he
  | cons f rest ih =>
    rcases List.mem_cons.mp he with rfl | hm
    · simp [resolveRequiredGo, hsome]
    · simp only [resolveRequiredGo]
      cases hr : resolveOne env f.2 <;> simp [hr, ih hm]

/-- The first truthy slot wins the name scan. -/
theorem resolveOne_first_wins (env : EnvMap) (p : List String) (n : String)
    (post : List String) (v : String)
    (hp : ∀ x ∈ p, pyTruthy (env x) = false) (hn : env n = some v)
    (hv : v ≠ "") : resolveOne env (p ++ n :: post) = some v := by
  induction p with
  | nil =>
    have hvb : (v != "") = true := by simpa using hv
    simp [resolveOne, hn, hvb]
  | cons x rest ih =>
    have hx := hp x (by simp)
    have hrest := ih (fun y hy => hp y (by simp [hy]))
    cases he : env x with
    | none => simp only [List.cons_append, resolveOne, he]; exact hrest
    | some w =>
      rw [he] at hx
      simp only [pyTruthy] at hx
      simp only [List.cons_append, resolveOne, he, hx, Bool.false_eq_true, if_false]
      exact hrest

/-- C8: if some required setting is absent (or empty) under all of its
accepted names, configuration loading fails with the missing-variables
error, whose message spells out every accepted name of every unresolved
setting; and whenever a setting has a truthy slot after only falsy ones,
that first truthy slot's value is the one resolved. -/
theorem claimC8_missing_settings_fatal (env : EnvMap)
    (h : ∃ e ∈ requiredSettings, ∀ n ∈ e.2, pyTruthy (env n) = false) :
    (∃ msg, Settings.from_env env = .error (.missingVars msg) ∧
      ∀ e ∈ requiredSettings, (∀ n ∈ e.2, pyTruthy (env n) = false) →
        ∀ n ∈ e.2, strContainsP msg n) ∧
    (∀ e ∈ requiredSettings, ∀ p n post v, e.2 = p ++ n :: post →
      (∀ x ∈ p, pyTruthy (env x) = false) → env n = some v → v ≠ "" →
      (e.1, v) ∈ (resolveRequiredGo env requiredSettings).1) := by
  obtain ⟨e0, he0, hf0⟩ := h
  have hmem0 := resolveRequiredGo_missing_mem env requiredSettings e0 he0
    (resolveOne_none_of_falsy env e0.2 hf0)
  have hne : (resolveRequiredGo env requiredSettings).2 ≠ [] :=
    List.ne_nil_of_mem hmem0
  constructor
  · refine ⟨missingMessage (resolveRequiredGo env requiredSettings).2, ?_, ?_⟩
    · simp only [Settings.from_env]
      rw [if_pos hne]
    · intro e he hf n hn
      exact strContainsP_trans _ _ _
        (missingMessage_contains _ _
          (resolveRequiredGo_missing_mem env requiredSettings e he
            (resolveOne_none_of_falsy env e.2 hf)))
        (formatEntry_contains e.2 n hn)
  · intro e he p n post v hsplit hp hn hv
    refine resolveRequiredGo_resolved_mem env _ e v he ?_
    rw [hsplit]
    exact resolveOne_first_wins env p n post v hp hn hv

/-- C8 witness: the empty environment, where every setting is unresolved. -/
theorem claimC8_witness :
    (∃ msg, Settings.from_env (fun _ => none) = .error (.missingVars msg) ∧
      ∀ e ∈ requiredSettings,
        (∀ n ∈ e.2, pyTruthy ((fun _ => (none : Option String)) n) = false) →
        ∀ n ∈ e.2, strContainsP msg n) ∧
    (∀ e ∈ requiredSettings, ∀ p n post v, e.2 = p ++ n :: post →
      (∀ x ∈ p, pyTruthy ((fun _ => (none : Option String)) x) = false) →
      (fun _ => (none : Option String)) n = some v → v ≠ "" →
      (e.1, v) ∈ (resolveRequiredGo (fun _ => none) requiredSettings).1) :=
  claimC8_missing_settings_fatal (fun _ => none)
    ⟨("deepseek_api_key", ["DEEPSEEK_APPI"]), by simp [requiredSettings],
      fun _ _ => rfl⟩

/-- The head surviving `dropWhile` fails the predicate. -/
theorem dropWhile_head_not (l : List Char) (d : Char)
    (h : (l.dropWhile isPyWs).head? = some d) : isPyWs d = false := by
  induction l with
  | nil => cases h
  | cons c rest ih =>
    rw [List.dropWhile_cons] at h
    cases hpc : isPyWs c
    · rw [if_neg (by simp [hpc])] at h
      rw [List.head?_cons] at h
      injection h with h'
      subst h'
      exact hpc
    · rw [if_pos (by simp [hpc])] at h
      exact ih h

/-- A non-empty right strip keeps the original head. -/
theorem stripRightChars_head (l : List Char) (h : stripRightChars l ≠ []) :
    (stripRightChars l).head? = l.head? := by
  induction l with
  | nil => exact absurd rfl h
  | cons c rest _ =>
    simp only [stripRightChars] at h ⊢
    cases hr : stripRightChars rest with
    | nil =>
      simp only [hr] at h ⊢
      cases hc : isPyWs c
      · simp [hc]
      · simp [hc] at h
    | cons x xs => simp [hr]

/-- The last character of a right strip is not whitespace. -/
theorem stripRightChars_last_not (l : List Char) (d : Char)
    (h : (stripRightChars l).getLast? = some d) : isPyWs d = false := by
  induction l with
  | nil => cases h
  | cons c rest ih =>
    simp only [stripRightChars] at h
    cases hr : stripRightChars rest with
    | nil =>
      simp only [hr] at h
      cases hc : isPyWs c
      · rw [if_neg (by simp [hc])] at h
        simp only [List.getLast?_singleton] at h
        injection h with h'
        subst h'
        exact hc
      · rw [if_pos (by simp [hc])] at h
        cases h
    | cons x xs =>
      simp only [hr, List.getLast?_cons_cons] at h
      exact ih (by rw [hr]; exact h)

/-- Right-stripping past a head character whose tail does not strip to
nothing. -/
theorem stripRightChars_cons_ne (c : Char) (l : List Char)
    (h : stripRightChars l ≠ []) :
    stripRightChars (c :: l) = c :: stripRightChars l := by
  simp only [stripRightChars]

/-- A list whose last character is not whitespace is fixed by the right
strip. -/
theorem stripRightChars_eq_of_last (l : List Char)
    (h : ∀ d, l.getLast? = some d → isPyWs d = false) : stripRightChars l = l := by
  induction l with
  | nil => rfl
  | cons c rest ih =>
    cases rest with
    | nil =>
      have hc := h c (by simp)
      simp [stripRightChars, hc]
    | cons x xs =>
      have hrest : stripRightChars (x :: xs) = x :: xs :=
        ih (fun d hd => h d (by rw [List.getLast?_cons_cons]; exact hd))
      rw [stripRightChars_cons_ne c (x :: xs) (by rw [hrest]; exact List.cons_ne_nil x xs),
        hrest]

/-- A list with non-whitespace head and last is fixed by the full strip. -/
theorem stripChars_eq_self (l : List Char) (c : Char) (t : List Char)
    (hl : l = c :: t) (hc : isPyWs c = false)
    (hlast : ∀ d, l.getLast? = some d → isPyWs d = false) :
    stripChars l = l := by
  subst hl
  rw [stripChars, List.dropWhile_cons, if_neg (by simp [hc])]
  exact stripRightChars_eq_of_last _ hlast

/-- The head of a strip output is not whitespace. -/
theorem stripChars_head_not (l : List Char) (d : Char)
    (h : (stripChars l).head? = some d) : isPyWs d = false := by
  have hne : stripChars l ≠ [] := by
    intro hc
    rw [hc] at h
    cases h
  rw [stripChars] at h hne
  rw [stripRightChars_head _ hne] at h
  exact dropWhile_head_not l d h

/-- The last character of a strip output is not whitespace. -/
theorem stripChars_last_not (l : List Char) (d : Char)
    (h : (stripChars l).getLast? = some d) : isPyWs d = false := by
  rw [stripChars] at h
  exact stripRightChars_last_not _ d h

/-- A string with non-whitespace first and last characters is fixed by
`pyStrip`. -/
theorem pyStrip_eq_self (r : String) (c : Char) (tl : List Char)
    (hd : r.data = c :: tl) (hc : isPyWs c = false)
    (hlast : ∀ d, r.data.getLast? = some d → isPyWs d = false) :
    pyStrip r = r := by
  show String.mk (stripChars r.data) = r
  rw [stripChars_eq_self r.data c tl hd hc hlast]

/-- A right strip of a list with non-whitespace head keeps that head. -/
theorem stripRightChars_cons_of_not (c : Char) (t : List Char)
    (hc : isPyWs c = false) :
    ∃ t2, stripRightChars (c :: t) = c :: t2 := by
  simp only [stripRightChars]
  cases hr : stripRightChars t with
  | nil =>
    refine ⟨[], ?_⟩
    simp [hc]
  | cons x xs => exact ⟨x :: xs, rfl⟩

/-- Every list is a leading segment of itself. -/
theorem leadsChars_refl (p : List Char) : leadsChars p p = true := by
  induction p with
  | nil => rfl
  | cons c rest ih => simp [leadsChars, ih]

/-- A singleton leading segment exposes the head. -/
theorem leadsChars_single (c : Char) (l : List Char)
    (h : leadsChars [c] l = true) : ∃ t, l = c :: t := by
  cases l with
  | nil => cases h
  | cons x xs =>
    simp only [leadsChars, Bool.and_eq_true, decide_eq_true_eq] at h
    exact ⟨xs, by rw [h.1]⟩

/-- A pattern occurs in any list that ends with it. -/
theorem containsChars_append_self (a p : List Char) (hp : p ≠ []) :
    containsChars (a ++ p) p = true := by
  induction a with
  | nil =>
    cases p with
    | nil => exact absurd rfl hp
    | cons c cs =>
      simp only [List.nil_append, containsChars]
      rw [leadsChars_refl]
      simp
  | cons x a2 ih =>
    have hstep : containsChars ((x :: a2) ++ p) p =
        (leadsChars p ((x :: a2) ++ p) || containsChars (a2 ++ p) p) := rfl
    rw [hstep, ih]
    simp

/-- A string whose character data starts with the emoji starts with the
emoji badge. -/
theorem pyStartsWith_emoji (r : String) (h : ∃ t, r.data = '🚀' :: t) :
    pyStartsWith r EMOJI_BADGE = true := by
  obtain ⟨t, ht⟩ := h
  show leadsChars EMOJI_BADGE.data r.data = true
  have he : EMOJI_BADGE.data = ['🚀'] := rfl
  rw [he, ht]
  simp [leadsChars]

/-- The hashtag block is all-lowercase. -/
theorem hashtags_lower_fixed :
    POPULAR_HASHTAGS.data.map Char.toLower = POPULAR_HASHTAGS.data := by decide

/-- A text ending in the hashtag block contains it case-insensitively. -/
theorem pyContains_lower_tail (x : String) :
    pyContains (pyLower (x ++ "\n\n" ++ POPULAR_HASHTAGS))
      (pyLower POPULAR_HASHTAGS) = true := by
  show containsChars ((x ++ "\n\n" ++ POPULAR_HASHTAGS).data.map Char.toLower)
    (POPULAR_HASHTAGS.data.map Char.toLower) = true
  rw [String.data_append, List.map_append, hashtags_lower_fixed]
  exact containsChars_append_self _ _ (by decide)

/-- The last character of a text ending in the hashtag block is `'i'`. -/
theorem tailBlock_last (x : String) (d : Char)
    (h : (x ++ "\n\n" ++ POPULAR_HASHTAGS).data.getLast? = some d) :
    isPyWs d = false := by
  rw [String.data_append] at h
  rw [List.getLast?_append_of_ne_nil _ (by decide)] at h
  have hi : POPULAR_HASHTAGS.data.getLast? = some 'i' := by decide
  rw [hi] at h
  injection h with h'
  subst h'
  decide

/-- A text ending in the hashtag block, whose head is not whitespace, is
fixed by `pyStrip`. -/
theorem tailBlock_strip (x : String) (c : Char) (t2 : List Char)
    (hx : x.data = c :: t2) (hc : isPyWs c = false) :
    pyStrip (x ++ "\n\n" ++ POPULAR_HASHTAGS) = x ++ "\n\n" ++ POPULAR_HASHTAGS := by
  have hd : (x ++ "\n\n" ++ POPULAR_HASHTAGS).data =
      c :: (t2 ++ ("\n\n" : String).data ++ POPULAR_HASHTAGS.data) := by
    rw [String.data_append, String.data_append, hx]
    simp
  apply pyStrip_eq_self _ c _ hd hc
  intro d hdl
  exact tailBlock_last x d hdl

/-- A text ending in the hashtag block, starting with the emoji, starts
with the emoji badge. -/
theorem tailBlock_starts (x : String) (t2 : List Char)
    (hx : x.data = '🚀' :: t2) :
    pyStartsWith (x ++ "\n\n" ++ POPULAR_HASHTAGS) EMOJI_BADGE = true := by
  apply pyStartsWith_emoji
  refine ⟨t2 ++ ("\n\n" : String).data ++ POPULAR_HASHTAGS.data, ?_⟩
  rw [String.data_append, String.data_append, hx]
  simp

/-- A post that is already stripped, already emoji-prefixed and already
hashtag-bearing passes through `prepare_post` unchanged. -/
theorem prepare_post_fix (r : String) (h1 : pyStrip r = r)
    (h2 : pyStartsWith r EMOJI_BADGE = true)
    (h3 : pyContains (pyLower r) (pyLower POPULAR_HASHTAGS) = true) :
    prepare_post r = r := by
  simp [prepare_post, h1, h2, h3]

/-- C9: `prepare_post` is idempotent — the emoji prefix is not duplicated
and the hashtag block is not appended twice. -/
theorem claimC9_prepare_post_idempotent (s : String) :
    prepare_post (prepare_post s) = prepare_post s := by
  cases hb1 : pyStartsWith (pyStrip s) EMOJI_BADGE with
  | true =>
    have hshape : ∃ t, (pyStrip s).data = '🚀' :: t := by
      have hl : leadsChars EMOJI_BADGE.data (pyStrip s).data = true := hb1
      have he : EMOJI_BADGE.data = ['🚀'] := rfl
      rw [he] at hl
      exact leadsChars_single _ _ hl
    obtain ⟨t, ht⟩ := hshape
    cases hb2 : pyContains (pyLower (pyStrip s)) (pyLower POPULAR_HASHTAGS) with
    | true =>
      have hr : prepare_post s = pyStrip s := by
        simp [prepare_post, hb1, hb2]
      rw [hr]
      refine prepare_post_fix _ ?_ hb1 hb2
      refine pyStrip_eq_self _ '🚀' t ht (by decide) ?_
      intro d hd
      exact stripChars_last_not s.data d hd
    | false =>
      have hr : prepare_post s =
          pyRStrip (pyStrip s) ++ "\n\n" ++ POPULAR_HASHTAGS := by
        simp [prepare_post, hb1, hb2]
      obtain ⟨t2, hxd⟩ : ∃ t2, (pyRStrip (pyStrip s)).data = '🚀' :: t2 := by
        show ∃ t2, stripRightChars (pyStrip s).data = '🚀' :: t2
        rw [ht]
        exact stripRightChars_cons_of_not _ _ (by decide)
      rw [hr]
      exact prepare_post_fix _
        (tailBlock_strip _ '🚀' t2 hxd (by decide))
        (tailBlock_starts _ t2 hxd)
        (pyContains_lower_tail _)
  | false =>
    have hy : (EMOJI_BADGE ++ " " ++ pyStrip s).data = '🚀' :: ' ' :: (pyStrip s).data := by
      rw [String.data_append]
      rfl
    cases hb2 : pyContains (pyLower (EMOJI_BADGE ++ " " ++ pyStrip s))
        (pyLower POPULAR_HASHTAGS) with
    | true =>
      have hr : prepare_post s = EMOJI_BADGE ++ " " ++ pyStrip s := by
        simp [prepare_post, hb1, hb2]
      rw [hr]
      refine prepare_post_fix _ ?_
        (pyStartsWith_emoji _ ⟨' ' :: (pyStrip s).data, hy⟩) hb2
      cases hst : (pyStrip s).data with
      | nil =>
        exfalso
        have hfixed : (EMOJI_BADGE ++ " " ++ pyStrip s).data = ['🚀', ' '] := by
          rw [hy, hst]
        have hfalse : pyContains (pyLower (EMOJI_BADGE ++ " " ++ pyStrip s))
            (pyLower POPULAR_HASHTAGS) = false := by
          show containsChars ((EMOJI_BADGE ++ " " ++ pyStrip s).data.map Char.toLower)
            (POPULAR_HASHTAGS.data.map Char.toLower) = false
          rw [hfixed]
          decide
        rw [hb2] at hfalse
        cases hfalse
      | cons d ds =>
        refine pyStrip_eq_self _ '🚀' (' ' :: (pyStrip s).data) hy (by decide) ?_
        intro e he
        rw [hy, hst, List.getLast?_cons_cons, List.getLast?_cons_cons] at he
        have hst2 : stripChars s.data = d :: ds := hst
        exact stripChars_last_not s.data e (by rw [hst2]; exact he)
    | false =>
      have hr : prepare_post s =
          pyRStrip (EMOJI_BADGE ++ " " ++ pyStrip s) ++ "\n\n" ++ POPULAR_HASHTAGS := by
        simp [prepare_post, hb1, hb2]
      obtain ⟨t2, hxd⟩ :
          ∃ t2, (pyRStrip (EMOJI_BADGE ++ " " ++ pyStrip s)).data = '🚀' :: t2 := by
        show ∃ t2, stripRightChars (EMOJI_BADGE ++ " " ++ pyStrip s).data = '🚀' :: t2
        rw [hy]
        exact stripRightChars_cons_of_not _ _ (by decide)
      rw [hr]
      exact prepare_post_fix _
        (tailBlock_strip _ '🚀' t2 hxd (by decide))
        (tailBlock_starts _ t2 hxd)
        (pyContains_lower_tail _)

end TelegramPost
